import Mathlib

/-!
Shallow embedding of `phi/jax/_jax_backend.py` (class `JaxBackend`), the
jax compute backend of the PhiFlow tensor layer: scatter/gather, the batched
conjugate-gradient wrapper, `functional_gradient`, `cast`/`as_tensor`,
`while_loop` and the PRNG-key state machine, together with theorems settling
the specification claims about them.

Conventions: jax arrays become Lean lists or functions over `ℕ` with values
in `ℚ`; python exceptions become `Except PyError`; the mutable
`solve_params.result` slot becomes an explicit component of the return value;
external jax routines (`jax.scipy.sparse.linalg.cg`, `jax.random.split`,
autodiff) are parameters or small mathematical models, as noted at each
definition.
-/

namespace PhiJax

/-- Kinds of python exceptions relevant to the embedded code: failed
`assert` statements, `raise NotImplementedError()`, and type errors from the
underlying engine. -/
inductive PyError where
  | assertionError : PyError
  | notImplementedError : PyError
  | typeError : PyError
deriving DecidableEq, Repr

/-- Modelled from the spec: `combined_dim` from
`phi.math.backend._backend_helper` is imported by `_jax_backend.py` but its
source is not part of the repository slice. Per the spec's
combined-batch-size rule, two batch sizes combine to the larger one when one
side has size 1, equal sizes pass through, and any other mismatch is an
error (modelled as `none`). -/
def combined_dim (a b : ℕ) : Option ℕ :=
  if a = b then some a
  else if a = 1 then some b
  else if b = 1 then some a
  else none

/-- Indexing `l[i]` on a jax array along its first axis: jax clamps
out-of-range integer indices to the valid range, and the python code itself
also writes `l[min(i, len(l) - 1)]` in the batched loops. -/
def pyGet {α : Type} (l : List α) (d : α) (i : ℕ) : α :=
  l.getD (min i (l.length - 1)) d

/-- A dense 2-d grid with a trailing channel axis, the operand shape
`(*shape, values.shape[-1])` that `scatter` builds: coordinates `x`, `y` and
channel `c`. -/
def Grid : Type := ℕ → ℕ → ℕ → ℚ

/-- `jnp.zeros((*shape, values.shape[-1]))`. -/
def zeroGrid : Grid := fun _ _ _ => 0

/-- Model of `jax.lax.scatter_add` with the dimension numbers used in
`JaxBackend.scatter` (`update_window_dims=(1,)`,
`inserted_window_dims=(0, 1)`, `scatter_dims_to_operand_dims=(0, 1)`): each
index row `(x, y)` receives its channel row of updates added into the
operand; rows whose index lies outside the operand shape are dropped
(jax's default `FILL_OR_DROP` out-of-bounds mode). -/
def scatter_add (X Y : ℕ) (operand : Grid)
    (pairs : List ((ℕ × ℕ) × List ℚ)) : Grid :=
  fun x y c =>
    operand x y c +
      (((pairs.filter (fun p => p.1.1 < X ∧ p.1.2 < Y)).filter
          (fun p => p.1.1 = x ∧ p.1.2 = y)).map
        (fun p => p.2.getD c 0)).sum

/-- `JaxBackend.scatter(indices, values, shape, duplicates_handling,
outside_handling)` for a 2-d `shape = (X, Y)`: entry assertions on the two
policy strings, `combined_dim` on the two batch sizes, the commented-out
`clamp`/`discard` index preprocessing absent, `raise NotImplementedError()`
for `'add'`, the sum/count/divide implementation for `'mean'`, and
`raise NotImplementedError()` in the final `else` branch (`'any'` and
`'undefined'`). -/
def scatter (indices : List (List (ℕ × ℕ))) (values : List (List (List ℚ)))
    (X Y : ℕ) (duplicates_handling : String) (outside_handling : String) :
    Except PyError (List Grid) :=
  if duplicates_handling ∈ (["undefined", "add", "mean", "any"] : List String) then
    if outside_handling ∈ (["discard", "clamp", "undefined"] : List String) then
      match combined_dim indices.length values.length with
      | none => Except.error PyError.assertionError
      | some batch_size =>
        if duplicates_handling = "add" then
          Except.error PyError.notImplementedError
        else if duplicates_handling = "mean" then
          Except.ok ((List.range batch_size).map (fun b =>
            let idx_b := pyGet indices [] b
            let val_b := pyGet values [] b
            let ones_b := val_b.map (fun row => row.map (fun _ => (1 : ℚ)))
            let sums := scatter_add X Y zeroGrid (idx_b.zip val_b)
            let counts := scatter_add X Y zeroGrid (idx_b.zip ones_b)
            fun x y c => sums x y c / max 1 (counts x y c)))
        else
          Except.error PyError.notImplementedError
    else Except.error PyError.assertionError
  else Except.error PyError.assertionError

/-- Reads one cell of a `scatter` result: batch element `b`, cell `(x, y)`,
channel `c`; `none` when the call raised. -/
def scatterCell (r : Except PyError (List Grid)) (b x y c : ℕ) : Option ℚ :=
  match r with
  | Except.ok gs => some (pyGet gs zeroGrid b x y c)
  | Except.error _ => none

/-- Follows the spec's words for the `outside_handling='clamp'` policy (the
commented-out branch of `JaxBackend.scatter`): every index coordinate is
clamped into `[0, shape)` before scattering; used only to compare the
implemented behaviour against the requested policy. -/
def clampIndices (X Y : ℕ) (indices : List (List (ℕ × ℕ))) :
    List (List (ℕ × ℕ)) :=
  indices.map (fun rows => rows.map (fun p => (min p.1 (X - 1), min p.2 (Y - 1))))

/-- Follows the spec's words: `scatter` as it would behave if the `'clamp'`
outside-handling policy were applied to the indices before scattering. -/
def scatter_with_clamp (indices : List (List (ℕ × ℕ)))
    (values : List (List (List ℚ))) (X Y : ℕ)
    (duplicates_handling : String) : Except PyError (List Grid) :=
  scatter (clampIndices X Y indices) values X Y duplicates_handling "clamp"

/-- `JaxBackend.batched_gather_nd(values, indices)` for a 2-d grid with `C`
channels: the batch size is `combined_dim(values.shape[0], indices.shape[0])`
and batch element `b` reads `values[min(b, len - 1)]` at the index rows of
`indices[min(b, len - 1)]`, yielding one channel row per index row. -/
def batched_gather_nd (C : ℕ) (values : List Grid)
    (indices : List (List (ℕ × ℕ))) :
    Except PyError (List (List (List ℚ))) :=
  match combined_dim values.length indices.length with
  | none => Except.error PyError.assertionError
  | some batch_size =>
    Except.ok ((List.range batch_size).map (fun b =>
      let b_values := pyGet values zeroGrid (min b (values.length - 1))
      let b_indices := pyGet indices [] (min b (indices.length - 1))
      b_indices.map (fun p => (List.range C).map (fun c => b_values p.1 p.2 c))))

/-- Modelled from the spec: `SolveResult` from `phi.math.backend._optim` is
imported but its source is not part of the repository slice; per the spec it
records a success flag and an iteration count (`-1` when unknown). -/
structure SolveResult where
  success : Bool
  iterations : ℤ
deriving DecidableEq

/-- Modelled from the spec: the `LinearSolve` solve configuration from
`phi.math` is imported but its source is not part of the repository slice;
per the spec it carries relative/absolute tolerances and a maximum iteration
count.  Its mutable `result` slot becomes the `SolveResult` component of
`conjugate_gradient`'s return value. -/
structure LinearSolve where
  relative_tolerance : ℚ
  absolute_tolerance : ℚ
  max_iterations : ℕ

/-- The operator argument `A` of `conjugate_gradient`: either one operator,
or a batch of operators (a python tuple/list or a rank-3 array, the
`isinstance(A, (tuple, list)) or self.ndims(A) == 3` test). -/
inductive AOperand (M : Type) where
  | single : M → AOperand M
  | batched : List M → AOperand M

/-- The batch-size contribution of `A`: when `A` is batched its leading
dimension is combined with the `y`/`x0` batch size, otherwise the batch size
passes through. -/
def cg_batch_size {M : Type} (A : AOperand M) (bs1 : ℕ) : Option ℕ :=
  match A with
  | AOperand.single _ => some bs1
  | AOperand.batched As => combined_dim bs1 As.length

/-- `JaxBackend.conjugate_gradient(A, y, x0, solve_params)`: combines the
batch sizes of `y`, `x0` (and of `A` when batched), loops over the batch
calling the external `jax.scipy.sparse.linalg.cg` (here the parameter `cg`)
on `y[min(batch, bs_y - 1)]` and `x0[min(batch, bs_x0 - 1)]` with the
configured tolerances and iteration cap, then unconditionally fills the
result slot with `SolveResult(success=True, iterations=-1)` and returns the
stacked solutions. -/
def conjugate_gradient {M V : Type} (dV : V)
    (cg : AOperand M → V → V → ℚ → ℚ → ℕ → V)
    (A : AOperand M) (y x0 : List V) (solve_params : LinearSolve) :
    Except PyError (List V × SolveResult) :=
  let bs_y := y.length
  let bs_x0 := x0.length
  match combined_dim bs_y bs_x0 with
  | none => Except.error PyError.assertionError
  | some bs1 =>
    match cg_batch_size A bs1 with
    | none => Except.error PyError.assertionError
    | some batch_size =>
      Except.ok
        ((List.range batch_size).map (fun batch =>
          cg A (y.getD (min batch (bs_y - 1)) dV) (x0.getD (min batch (bs_x0 - 1)) dV)
            solve_params.relative_tolerance solve_params.absolute_tolerance
            solve_params.max_iterations),
         SolveResult.mk true (-1))

/-- A model of `jax.scipy.sparse.linalg.cg` called with `maxiter=0`: the
iteration loop body never runs, so the initial guess is returned as the last
iterate. -/
def cgStub : AOperand ℚ → ℚ → ℚ → ℚ → ℚ → ℕ → ℚ :=
  fun _ _ x0 _ _ _ => x0

/-- Dtype kinds of the tensor layer: int, float, complex, bool. -/
inductive DKind where
  | i : DKind
  | f : DKind
  | c : DKind
  | b : DKind
deriving DecidableEq

/-- `DType` from `phi.math`: a kind plus a bit width. -/
structure DType where
  kind : DKind
  bits : ℕ
deriving DecidableEq

/-- A jax array for the casting claims: its dtype and its element data. -/
structure Tensor where
  dtype : DType
  data : List ℚ
deriving DecidableEq

/-- Elementwise value conversion performed by `jnp.array(x, dtype)`: floor
to an integer for int targets, collapse to 0/1 for bool targets, identity
otherwise. -/
def convertVal (d : DType) (q : ℚ) : ℚ :=
  match d.kind with
  | DKind.i => ((⌊q⌋ : ℤ) : ℚ)
  | DKind.b => if q = 0 then 0 else 1
  | _ => q

/-- `JaxBackend.cast(x, dtype)`: when `x` is already a native tensor of the
requested dtype it is returned unchanged, otherwise `jnp.array(x, dtype)`
converts it. -/
def cast (x : Tensor) (dtype : DType) : Tensor :=
  if x.dtype = dtype then x
  else Tensor.mk dtype (x.data.map (convertVal dtype))

/-- Host data passed to `as_tensor`: a python/numpy scalar or an array-like,
with its element dtype. -/
inductive PyVal where
  | num : DType → ℚ → PyVal
  | arr : DType → List ℚ → PyVal

/-- `JaxBackend.as_tensor(x)` with the default `convert_external=True`:
non-native input becomes `jnp.array(x)`, and a float-kind result is coerced
to the backend's working precision `float_type` (the `self.to_float(array)`
call; `Backend.to_float` is modelled from the spec's dtype-promotion rule as
a cast to the configured float type, its source not being part of the
repository slice). -/
def as_tensor (float_type : DType) (x : PyVal) : Tensor :=
  let array : Tensor :=
    match x with
    | PyVal.num d q => Tensor.mk d [q]
    | PyVal.arr d qs => Tensor.mk d qs
  if array.dtype.kind = DKind.f then cast array float_type else array

/-- `JaxBackend.while_loop(cond, body, loop_vars, maximum_iterations)`: a
python `while cond(*loop_vars)` loop that breaks when the iteration counter
reaches `maximum_iterations` (checked after the condition, before the body),
modelled by recursion on the remaining iteration budget. -/
def while_loop {α : Type} (cond : α → Bool) (body : α → α) :
    α → ℕ → α
  | loop_vars, remaining =>
    if cond loop_vars then
      match remaining with
      | 0 => loop_vars
      | r + 1 => while_loop cond body (body loop_vars) r
    else loop_vars

/-- Differentiable expressions over positional arguments, the functions fed
to `functional_gradient`: argument references, rational constants, sums and
products. -/
inductive Expr where
  | var : ℕ → Expr
  | const : ℚ → Expr
  | add : Expr → Expr → Expr
  | mul : Expr → Expr → Expr
deriving DecidableEq

/-- Evaluation of an expression in any field, with an argument
assignment. -/
def Expr.evalF {R : Type} [Field R] (args : ℕ → R) : Expr → R
  | Expr.var i => args i
  | Expr.const q => (q : R)
  | Expr.add a b => a.evalF args + b.evalF args
  | Expr.mul a b => a.evalF args * b.evalF args

/-- Evaluation at a concrete positional-argument list (missing arguments
read as 0). -/
def Expr.eval (args : List ℚ) (e : Expr) : ℚ :=
  e.evalF (fun i => args.getD i 0)

/-- Symbolic partial derivative with respect to positional argument `i`,
the model of jax reverse-mode differentiation of one expression. -/
def Expr.pderiv (i : ℕ) : Expr → Expr
  | Expr.var j => Expr.const (if i = j then 1 else 0)
  | Expr.const _ => Expr.const 0
  | Expr.add a b => Expr.add (a.pderiv i) (b.pderiv i)
  | Expr.mul a b => Expr.add (Expr.mul (a.pderiv i) b) (Expr.mul a (b.pderiv i))

/-- A python function handed to `functional_gradient`: its primary output,
any auxiliary outputs, and whether it returns them as a tuple/list
(`isSeq = false` means a bare single value, in which case `auxOut` is
ignored). -/
structure PyFunc where
  primary : Expr
  auxOut : List Expr
  isSeq : Bool

/-- The `aux_f` wrapper built inside `JaxBackend.functional_gradient` when
`get_output` is true: a tuple/list result of length `> 1` is split into
`(result[0], result[1:])`, any other result becomes `(result, None)`.  A
length-1 tuple makes the whole tuple the differentiated quantity, which the
engine rejects as a non-scalar loss (`TypeError`). -/
def aux_split (f : PyFunc) : Except PyError (Expr × Option (List Expr)) :=
  if f.isSeq ∧ f.auxOut ≠ [] then Except.ok (f.primary, some f.auxOut)
  else if f.isSeq then Except.error PyError.typeError
  else Except.ok (f.primary, none)

/-- `JaxBackend.functional_gradient(f, wrt, get_output=True)` applied to
`args`: `jax.value_and_grad(aux_f, argnums=wrt, has_aux=True)` produces
`((loss, aux), grads)` (gradients modelled by symbolic partial derivatives),
and `unwrap_outputs` returns `(loss, *aux, *grads)` when auxiliary outputs
exist and `(loss, *grads)` otherwise. -/
def functional_gradient_output (f : PyFunc) (wrt : List ℕ) (args : List ℚ) :
    Except PyError (List ℚ) :=
  match aux_split f with
  | Except.error e => Except.error e
  | Except.ok (loss, auxOut) =>
    let lossVal := loss.eval args
    let grads := wrt.map (fun i => (loss.pderiv i).eval args)
    match auxOut with
    | some auxes => Except.ok (lossVal :: (auxes.map (fun a => a.eval args) ++ grads))
    | none => Except.ok (lossVal :: grads)

/-- The PRNG state of a `JaxBackend` instance: the stored `self.rnd_key`. -/
structure RandomBackend (K : Type) where
  rnd_key : K

/-- `JaxBackend.__init__`: the stored key is `jax.random.PRNGKey(seed=0)`
(`prngKey` models the external key constructor). -/
def initBackend {K : Type} (prngKey : ℕ → K) : RandomBackend K :=
  RandomBackend.mk (prngKey 0)

/-- One call to `random_uniform`/`random_normal`:
`self.rnd_key, subkey = jax.random.split(self.rnd_key)` followed by sampling
from `subkey`; `split` and the per-call sampler model the external jax
routines. -/
def random_sample {K S : Type} (split : K → K × K) (sampler : K → S)
    (b : RandomBackend K) : RandomBackend K × S :=
  (RandomBackend.mk (split b.rnd_key).1, sampler (split b.rnd_key).2)

/-- A sequence of `random_uniform`/`random_normal` calls on one backend
instance, each call given by its sampler (shape and distribution folded into
the sampler); returns the samples in order. -/
def run_calls {K S : Type} (split : K → K × K) :
    RandomBackend K → List (K → S) → List S
  | _, [] => []
  | b, c :: cs =>
    let step := random_sample split c b
    step.2 :: run_calls split step.1 cs

/-- The stored key after `n` sampling calls starting from `k0`. -/
def nthKey {K : Type} (split : K → K × K) (k0 : K) (n : ℕ) : K :=
  (fun k => (split k).1)^[n] k0

/-- The subkey consumed by the `n`-th sampling call (0-based) starting from
stored key `k0`. -/
def nthSubkey {K : Type} (split : K → K × K) (k0 : K) (n : ℕ) : K :=
  (split (nthKey split k0 n)).2

/-! ## Helper lemmas -/

theorem pyGet_range_map {α : Type} (n : ℕ) (f : ℕ → α) (d : α) (b : ℕ)
    (h : b < n) : pyGet ((List.range n).map f) d b = f b := by
  unfold pyGet
  rw [List.length_map, List.length_range]
  have hm : min b (n - 1) = b := by omega
  rw [hm]
  have hlt : b < ((List.range n).map f).length := by
    rw [List.length_map, List.length_range]
    exact h
  rw [List.getD_eq_getElem _ _ hlt, List.getElem_map, List.getElem_range]

theorem scatter_add_cell (X Y : ℕ) (operand : Grid)
    (pairs : List ((ℕ × ℕ) × List ℚ)) (x y c : ℕ) (hx : x < X) (hy : y < Y) :
    scatter_add X Y operand pairs x y c =
      operand x y c +
        ((pairs.filter (fun p => p.1.1 = x ∧ p.1.2 = y)).map
          (fun p => p.2.getD c 0)).sum := by
  unfold scatter_add
  have hf : (pairs.filter (fun p => p.1.1 < X ∧ p.1.2 < Y)).filter
        (fun p => p.1.1 = x ∧ p.1.2 = y) =
      pairs.filter (fun p => p.1.1 = x ∧ p.1.2 = y) := by
    rw [List.filter_filter]
    apply List.filter_congr
    intro a _
    by_cases h : a.1.1 = x ∧ a.1.2 = y
    · simp [h.1, h.2, hx, hy]
    · simp [h]
  rw [hf]

theorem scatter_add_ones_cell (X Y : ℕ) (idx : List (ℕ × ℕ))
    (val : List (List ℚ)) (x y c : ℕ) (hx : x < X) (hy : y < Y)
    (hc : ∀ row ∈ val, c < row.length) :
    scatter_add X Y zeroGrid
        (idx.zip (val.map (fun row => row.map (fun _ => (1 : ℚ))))) x y c =
      (((idx.zip val).filter (fun p => p.1.1 = x ∧ p.1.2 = y)).length : ℚ) := by
  rw [scatter_add_cell X Y zeroGrid _ x y c hx hy]
  have hz : zeroGrid x y c = 0 := rfl
  rw [hz, zero_add, List.zip_map_right, List.filter_map, List.map_map]
  have hfc : (idx.zip val).filter
        ((fun p => decide (p.1.1 = x ∧ p.1.2 = y)) ∘
          Prod.map id (fun row => row.map (fun _ => (1 : ℚ)))) =
      (idx.zip val).filter (fun p => p.1.1 = x ∧ p.1.2 = y) :=
    List.filter_congr (fun a _ => rfl)
  rw [hfc]
  have hmap : ((idx.zip val).filter (fun p => p.1.1 = x ∧ p.1.2 = y)).map
        ((fun p => p.2.getD c 0) ∘
          Prod.map id (fun row => row.map (fun _ => (1 : ℚ)))) =
      ((idx.zip val).filter (fun p => p.1.1 = x ∧ p.1.2 = y)).map
        (fun _ => (1 : ℚ)) := by
    apply List.map_congr_left
    intro a ha
    have haz : a ∈ idx.zip val := List.mem_of_mem_filter ha
    have haval : a.2 ∈ val := by
      obtain ⟨a1, a2⟩ := a
      exact (List.of_mem_zip haz).2
    have hlen : c < a.2.length := hc a.2 haval
    show (a.2.map (fun _ => (1 : ℚ))).getD c 0 = 1
    have hlt : c < (a.2.map (fun _ => (1 : ℚ))).length := by
      rw [List.length_map]
      exact hlen
    rw [List.getD_eq_getElem _ _ hlt, List.getElem_map]
  rw [hmap, List.map_const', List.sum_replicate, nsmul_eq_mul, mul_one]

theorem scatter_mean_eq (indices : List (List (ℕ × ℕ)))
    (values : List (List (List ℚ))) (X Y : ℕ) (oh : String) (batch : ℕ)
    (hoh : oh ∈ (["discard", "clamp", "undefined"] : List String))
    (hcd : combined_dim indices.length values.length = some batch) :
    scatter indices values X Y "mean" oh =
      Except.ok ((List.range batch).map (fun b => fun x y c =>
        scatter_add X Y zeroGrid
            ((pyGet indices [] b).zip (pyGet values [] b)) x y c /
          max 1 (scatter_add X Y zeroGrid
            ((pyGet indices [] b).zip
              ((pyGet values [] b).map
                (fun row => row.map (fun _ => (1 : ℚ))))) x y c))) := by
  unfold scatter
  rw [if_pos (by decide : ("mean" : String) ∈ _), if_pos hoh, hcd]
  dsimp only
  rw [if_neg (by decide : ¬ ("mean" : String) = "add"), if_pos rfl]

theorem scatter_mean_cell_eq (indices : List (List (ℕ × ℕ)))
    (values : List (List (List ℚ))) (X Y : ℕ) (oh : String) (batch : ℕ)
    (hoh : oh ∈ (["discard", "clamp", "undefined"] : List String))
    (hcd : combined_dim indices.length values.length = some batch)
    (b x y c : ℕ) (hb : b < batch) (hx : x < X) (hy : y < Y)
    (hc : ∀ row ∈ pyGet values [] b, c < row.length) :
    scatterCell (scatter indices values X Y "mean" oh) b x y c =
      some (((((pyGet indices [] b).zip (pyGet values [] b)).filter
            (fun p => p.1.1 = x ∧ p.1.2 = y)).map (fun p => p.2.getD c 0)).sum /
        max 1 ((((pyGet indices [] b).zip (pyGet values [] b)).filter
            (fun p => p.1.1 = x ∧ p.1.2 = y)).length : ℚ)) := by
  have hmem : ("mean" : String) ∈ (["undefined", "add", "mean", "any"] : List String) := by
    decide
  unfold scatter
  rw [if_pos hmem, if_pos hoh, hcd]
  dsimp only
  rw [if_neg (by decide : ¬ ("mean" : String) = "add"), if_pos rfl]
  unfold scatterCell
  dsimp only
  rw [pyGet_range_map batch _ zeroGrid b hb]
  rw [scatter_add_cell X Y zeroGrid _ x y c hx hy,
    scatter_add_ones_cell X Y _ _ x y c hx hy hc]
  have hz : zeroGrid x y c = 0 := rfl
  rw [hz, zero_add]

theorem filter_pair_of_count_one (a : ℕ × ℕ) (idx : List (ℕ × ℕ))
    (h : idx.count a = 1) : idx.filter (fun x => x = a) = [a] := by
  induction idx with
  | nil => simp at h
  | cons b t ih =>
    rw [List.count_cons] at h
    by_cases hba : b = a
    · subst hba
      simp only [beq_self_eq_true, if_pos] at h
      have ht : t.count b = 0 := by omega
      have hnotin : b ∉ t := List.count_eq_zero.mp ht
      have htf : t.filter (fun x => x = b) = [] := by
        rw [List.filter_eq_nil_iff]
        intro x hx
        simp only [decide_eq_true_eq]
        intro hxb
        exact hnotin (hxb ▸ hx)
      simp [List.filter_cons, htf]
    · have hba' : (b == a) = false := by
        simpa using hba
      rw [hba'] at h
      simp only [if_neg, Bool.false_eq_true, add_zero] at h
      have := ih h
      simpa [List.filter_cons, hba] using this

theorem zip_map_self {α β : Type} (l : List α) (f : α → β) :
    l.zip (l.map f) = l.map (fun a => (a, f a)) := by
  induction l with
  | nil => rfl
  | cons a t ih => simp [ih]

theorem getD_range_map {α : Type} (n : ℕ) (f : ℕ → α) (d : α) (b : ℕ)
    (h : b < n) : ((List.range n).map f).getD b d = f b := by
  have hlt : b < ((List.range n).map f).length := by
    rw [List.length_map, List.length_range]
    exact h
  rw [List.getD_eq_getElem _ _ hlt, List.getElem_map, List.getElem_range]

theorem conjugate_gradient_eq_ok {M V : Type} (dV : V)
    (cg : AOperand M → V → V → ℚ → ℚ → ℕ → V) (A : AOperand M)
    (y x0 : List V) (p : LinearSolve) (bs1 batch : ℕ)
    (h1 : combined_dim y.length x0.length = some bs1)
    (h2 : cg_batch_size A bs1 = some batch) :
    conjugate_gradient dV cg A y x0 p =
      Except.ok
        ((List.range batch).map (fun b =>
          cg A (y.getD (min b (y.length - 1)) dV)
            (x0.getD (min b (x0.length - 1)) dV)
            p.relative_tolerance p.absolute_tolerance p.max_iterations),
         SolveResult.mk true (-1)) := by
  unfold conjugate_gradient
  simp only [h1, h2]

theorem cast_dtype (t : Tensor) (d : DType) : (cast t d).dtype = d := by
  unfold cast
  split
  · next h => exact h
  · rfl

theorem cast_of_dtype_eq {d : DType} (t : Tensor) (h : t.dtype = d) :
    cast t d = t := by
  unfold cast
  rw [if_pos h]

theorem while_loop_zero {α : Type} (cond : α → Bool) (body : α → α) (v : α) :
    while_loop cond body v 0 = v := by
  unfold while_loop
  split <;> rfl

theorem while_loop_succ {α : Type} (cond : α → Bool) (body : α → α) (v : α)
    (r : ℕ) :
    while_loop cond body v (r + 1) =
      if cond v then while_loop cond body (body v) r else v := by
  conv_lhs => unfold while_loop

/-! ## Claim theorems -/

/-- C7: casting is idempotent: `cast (cast (as_tensor x) d) d` equals
`cast (as_tensor x) d` for every host input `x` and dtype `d`, and
re-casting any tensor to its own dtype returns it unchanged. -/
theorem cast_idempotent (float_type : DType) (x : PyVal) (d : DType) :
    cast (cast (as_tensor float_type x) d) d = cast (as_tensor float_type x) d ∧
    ∀ t : Tensor, cast t t.dtype = t := by
  constructor
  · exact cast_of_dtype_eq _ (cast_dtype _ _)
  · intro t
    exact cast_of_dtype_eq t rfl

/-- C8: `while_loop` with `maximum_iterations = k` applies `body` some
`m ≤ k` times, where `cond` held before each of those applications, and it
stops exactly when `cond` turns false or the cap is reached (if it stops
with `m < k`, `cond` is false at the result); the returned value is the
current loop variables at that point. -/
theorem while_loop_iterates {α : Type} (cond : α → Bool) (body : α → α)
    (loop_vars : α) (k : ℕ) :
    ∃ m, m ≤ k ∧ while_loop cond body loop_vars k = body^[m] loop_vars ∧
      (∀ j, j < m → cond (body^[j] loop_vars) = true) ∧
      (m < k → cond (body^[m] loop_vars) = false) := by
  induction k generalizing loop_vars with
  | zero =>
    refine ⟨0, le_rfl, while_loop_zero cond body loop_vars, ?_, ?_⟩
    · intro j hj
      exact absurd hj (Nat.not_lt_zero j)
    · intro h
      exact absurd h (lt_irrefl 0)
  | succ r ih =>
    by_cases hc : cond loop_vars = true
    · obtain ⟨m, hm, heq, hall, hstop⟩ := ih (body loop_vars)
      refine ⟨m + 1, Nat.succ_le_succ hm, ?_, ?_, ?_⟩
      · rw [while_loop_succ, if_pos hc, heq, Function.iterate_succ_apply]
      · intro j hj
        cases j with
        | zero => exact hc
        | succ j' =>
          rw [Function.iterate_succ_apply]
          exact hall j' (Nat.lt_of_succ_lt_succ hj)
      · intro h
        rw [Function.iterate_succ_apply]
        exact hstop (Nat.lt_of_succ_lt_succ h)
    · refine ⟨0, Nat.zero_le _, ?_, ?_, ?_⟩
      · rw [while_loop_succ, if_neg hc, Function.iterate_zero_apply]
      · intro j hj
        exact absurd hj (Nat.not_lt_zero j)
      · intro _
        exact Bool.eq_false_iff.mpr hc

/-- C9: `scatter` validates its two policy strings at entry, for every
index/value input alike: any string outside the allowed sets yields an
assertion failure, and a run that reaches a policy branch (returning a
result or a `NotImplementedError`) can only have had allowed values. -/
theorem scatter_entry_validation (dh oh : String)
    (indices : List (List (ℕ × ℕ))) (values : List (List (List ℚ)))
    (X Y : ℕ) :
    (¬ (dh ∈ (["undefined", "add", "mean", "any"] : List String) ∧
        oh ∈ (["discard", "clamp", "undefined"] : List String)) →
      scatter indices values X Y dh oh = Except.error PyError.assertionError) ∧
    (∀ r, scatter indices values X Y dh oh = Except.ok r →
      dh ∈ (["undefined", "add", "mean", "any"] : List String) ∧
      oh ∈ (["discard", "clamp", "undefined"] : List String)) ∧
    (scatter indices values X Y dh oh = Except.error PyError.notImplementedError →
      dh ∈ (["undefined", "add", "mean", "any"] : List String) ∧
      oh ∈ (["discard", "clamp", "undefined"] : List String)) := by
  by_cases h1 : dh ∈ (["undefined", "add", "mean", "any"] : List String)
  · by_cases h2 : oh ∈ (["discard", "clamp", "undefined"] : List String)
    · refine ⟨fun h => absurd ⟨h1, h2⟩ h, fun r _ => ⟨h1, h2⟩, fun _ => ⟨h1, h2⟩⟩
    · have he : scatter indices values X Y dh oh = Except.error PyError.assertionError := by
        unfold scatter
        rw [if_pos h1, if_neg h2]
      refine ⟨fun _ => he, fun r hr => ?_, fun hr => ?_⟩
      · rw [he] at hr
        exact absurd hr (by simp)
      · rw [he] at hr
        exact absurd hr (by simp)
  · have he : scatter indices values X Y dh oh = Except.error PyError.assertionError := by
      unfold scatter
      rw [if_neg h1]
    refine ⟨fun _ => he, fun r hr => ?_, fun hr => ?_⟩
    · rw [he] at hr
      exact absurd hr (by simp)
    · rw [he] at hr
      exact absurd hr (by simp)

/-- C9 witness: a policy string outside the allowed set (`'last'`) fails the
entry assertion on a concrete call. -/
theorem scatter_entry_validation_witness :
    scatter [[((0 : ℕ), (0 : ℕ))]] [[[(1 : ℚ)]]] 1 1 "last" "clamp" =
      Except.error PyError.assertionError :=
  (scatter_entry_validation "last" "clamp" [[((0 : ℕ), (0 : ℕ))]] [[[(1 : ℚ)]]] 1 1).1
    (by decide)

/-- C2: with `duplicates_handling='mean'`, every cell of every batch element
holds the accumulated sum of the values written to it divided by
`max(count, 1)` where `count` is the number of writes to that cell; a cell
receiving no write therefore holds exactly `0`. -/
theorem scatter_mean_semantics (indices : List (List (ℕ × ℕ)))
    (values : List (List (List ℚ))) (X Y : ℕ) (oh : String) (batch : ℕ)
    (hoh : oh ∈ (["discard", "clamp", "undefined"] : List String))
    (hcd : combined_dim indices.length values.length = some batch)
    (b x y c : ℕ) (hb : b < batch) (hx : x < X) (hy : y < Y)
    (hc : ∀ row ∈ pyGet values [] b, c < row.length) :
    scatterCell (scatter indices values X Y "mean" oh) b x y c =
      some (((((pyGet indices [] b).zip (pyGet values [] b)).filter
            (fun p => p.1.1 = x ∧ p.1.2 = y)).map (fun p => p.2.getD c 0)).sum /
        max 1 ((((pyGet indices [] b).zip (pyGet values [] b)).filter
            (fun p => p.1.1 = x ∧ p.1.2 = y)).length : ℚ)) ∧
    ((((pyGet indices [] b).zip (pyGet values [] b)).filter
        (fun p => p.1.1 = x ∧ p.1.2 = y)) = [] →
      scatterCell (scatter indices values X Y "mean" oh) b x y c = some 0) := by
  have h := scatter_mean_cell_eq indices values X Y oh batch hoh hcd b x y c hb hx hy hc
  refine ⟨h, fun hempty => ?_⟩
  rw [h, hempty]
  norm_num

/-- C2 witness: scattering `[10, 20]` onto the same cell yields `15` there,
and an untouched cell holds `0`. -/
theorem scatter_mean_semantics_witness :
    scatterCell (scatter [[((0 : ℕ), (0 : ℕ)), (0, 0)]] [[[10], [20]]] 2 2
        "mean" "undefined") 0 0 0 0 = some 15 ∧
    scatterCell (scatter [[((0 : ℕ), (0 : ℕ)), (0, 0)]] [[[10], [20]]] 2 2
        "mean" "undefined") 0 1 1 0 = some 0 := by
  constructor
  · have h := (scatter_mean_semantics [[((0 : ℕ), (0 : ℕ)), (0, 0)]]
      [[[10], [20]]] 2 2 "undefined" 1 (by decide) (by decide) 0 0 0 0
      (by decide) (by decide) (by decide) (by decide)).1
    rw [h]
    norm_num [pyGet]
  · have h := (scatter_mean_semantics [[((0 : ℕ), (0 : ℕ)), (0, 0)]]
      [[[10], [20]]] 2 2 "undefined" 1 (by decide) (by decide) 0 1 1 0
      (by decide) (by decide) (by decide) (by decide)).2
    exact h (by decide)

/-- C3 counterexample: a `scatter` call with `outside_handling='clamp'` and
an out-of-range index `(5, 0)` into shape `(3, 2)` neither raises nor
applies the clamp policy: the cell `(2, 0)` that clamping would fill with
`7` (as `scatter_with_clamp` shows) is returned as `0`. -/
theorem scatter_clamp_ignored_cx :
    scatterCell (scatter [[((5 : ℕ), (0 : ℕ))]] [[[7]]] 3 2 "mean" "clamp")
        0 2 0 0 = some 0 ∧
    scatterCell (scatter_with_clamp [[((5 : ℕ), (0 : ℕ))]] [[[7]]] 3 2 "mean")
        0 2 0 0 = some 7 := by
  constructor
  · have h := (scatter_mean_cell_eq [[((5 : ℕ), (0 : ℕ))]] [[[7]]] 3 2 "clamp"
      1 (by decide) (by decide) 0 2 0 0 (by decide) (by decide) (by decide)
      (by decide))
    rw [h]
    norm_num [pyGet]
  · have hcl : clampIndices 3 2 [[((5 : ℕ), (0 : ℕ))]] = [[(2, 0)]] := by
      decide
    unfold scatter_with_clamp
    rw [hcl]
    have h := (scatter_mean_cell_eq [[((2 : ℕ), (0 : ℕ))]] [[[7]]] 3 2 "clamp"
      1 (by decide) (by decide) 0 2 0 0 (by decide) (by decide) (by decide)
      (by decide))
    rw [h]
    norm_num [pyGet]

/-- C3 amended: `duplicates_handling` values `'add'`, `'any'` and
`'undefined'` fail fast with `NotImplementedError`; but the validated
`outside_handling` values are silently ignored rather than applied or
rejected: the `'mean'` scatter returns the identical result for every
allowed `outside_handling` string, with no clamping or discarding
performed. -/
theorem scatter_unimplemented_policies (indices : List (List (ℕ × ℕ)))
    (values : List (List (List ℚ))) (X Y : ℕ) (oh oh' : String) (batch : ℕ)
    (hoh : oh ∈ (["discard", "clamp", "undefined"] : List String))
    (hoh' : oh' ∈ (["discard", "clamp", "undefined"] : List String))
    (hcd : combined_dim indices.length values.length = some batch) :
    scatter indices values X Y "add" oh = Except.error PyError.notImplementedError ∧
    scatter indices values X Y "any" oh = Except.error PyError.notImplementedError ∧
    scatter indices values X Y "undefined" oh = Except.error PyError.notImplementedError ∧
    scatter indices values X Y "mean" oh = scatter indices values X Y "mean" oh' := by
  refine ⟨?_, ?_, ?_, ?_⟩
  · unfold scatter
    rw [if_pos (by decide : ("add" : String) ∈ _), if_pos hoh, hcd]
    dsimp only
    rw [if_pos rfl]
  · unfold scatter
    rw [if_pos (by decide : ("any" : String) ∈ _), if_pos hoh, hcd]
    dsimp only
    rw [if_neg (by decide : ¬ ("any" : String) = "add"),
      if_neg (by decide : ¬ ("any" : String) = "mean")]
  · unfold scatter
    rw [if_pos (by decide : ("undefined" : String) ∈ _), if_pos hoh, hcd]
    dsimp only
    rw [if_neg (by decide : ¬ ("undefined" : String) = "add"),
      if_neg (by decide : ¬ ("undefined" : String) = "mean")]
  · rw [scatter_mean_eq indices values X Y oh batch hoh hcd,
      scatter_mean_eq indices values X Y oh' batch hoh' hcd]

/-- C3 witness: the amended statement at a concrete in-range call, with
`'clamp'` and `'discard'` requested. -/
theorem scatter_unimplemented_policies_witness :
    scatter [[((0 : ℕ), (0 : ℕ))]] [[[1]]] 1 1 "add" "clamp" =
        Except.error PyError.notImplementedError ∧
    scatter [[((0 : ℕ), (0 : ℕ))]] [[[1]]] 1 1 "any" "clamp" =
        Except.error PyError.notImplementedError ∧
    scatter [[((0 : ℕ), (0 : ℕ))]] [[[1]]] 1 1 "undefined" "clamp" =
        Except.error PyError.notImplementedError ∧
    scatter [[((0 : ℕ), (0 : ℕ))]] [[[1]]] 1 1 "mean" "clamp" =
        scatter [[((0 : ℕ), (0 : ℕ))]] [[[1]]] 1 1 "mean" "discard" :=
  scatter_unimplemented_policies [[((0 : ℕ), (0 : ℕ))]] [[[1]]] 1 1 "clamp"
    "discard" 1 (by decide) (by decide) (by decide)

/-- C6 counterexample: `scatter` with `duplicates_handling='any'` raises
`NotImplementedError` on every call, so the gather-then-scatter round trip
of the claim cannot return a tensor at all, even for a one-element index
list with no duplicates. -/
theorem gather_scatter_any_cx :
    batched_gather_nd 1 [fun _ _ _ => (3 : ℚ)] [[((0 : ℕ), (0 : ℕ))]] =
        Except.ok [[[3]]] ∧
    scatter [[((0 : ℕ), (0 : ℕ))]] [[[3]]] 1 1 "any" "undefined" =
        Except.error PyError.notImplementedError := by
  constructor
  · rfl
  · rfl

/-- C6 amended: replacing the unimplemented `'any'` policy with the
implemented `'mean'` one, gathering at `indices` and scattering the result
back over the same indices reconstructs the original values at every index
that appears exactly once in `indices` (sum of one write divided by
`max(1, 1)`). -/
theorem gather_scatter_roundtrip_mean (g : Grid) (C : ℕ)
    (idx : List (ℕ × ℕ)) (X Y : ℕ) (oh : String)
    (hoh : oh ∈ (["discard", "clamp", "undefined"] : List String))
    (i j c : ℕ) (honce : idx.count (i, j) = 1) (hx : i < X) (hy : j < Y)
    (hc : c < C) (gath : List (List (List ℚ)))
    (hg : batched_gather_nd C [g] [idx] = Except.ok gath) :
    scatterCell (scatter [idx] gath X Y "mean" oh) 0 i j c = some (g i j c) := by
  have hgeq : gath = [idx.map (fun p => (List.range C).map (fun c => g p.1 p.2 c))] := by
    have hbg : batched_gather_nd C [g] [idx] =
        Except.ok [idx.map (fun p => (List.range C).map (fun c => g p.1 p.2 c))] := rfl
    rw [hbg] at hg
    exact (Except.ok.inj hg).symm
  subst hgeq
  have hcell := scatter_mean_cell_eq [idx]
    [idx.map (fun p => (List.range C).map (fun c => g p.1 p.2 c))] X Y oh 1
    hoh rfl 0 i j c (by decide) hx hy ?hc
  case hc =>
    intro row hrow
    have : ∃ p, p ∈ idx ∧ ((List.range C).map (fun c => g p.1 p.2 c)) = row := by
      simpa [pyGet] using hrow
    obtain ⟨p, _, hrow_eq⟩ := this
    rw [← hrow_eq, List.length_map, List.length_range]
    exact hc
  rw [hcell]
  have hidx : pyGet [idx] ([] : List (ℕ × ℕ)) 0 = idx := rfl
  have hval : pyGet [idx.map (fun p => (List.range C).map (fun c => g p.1 p.2 c))]
      ([] : List (List ℚ)) 0 =
      idx.map (fun p => (List.range C).map (fun c => g p.1 p.2 c)) := rfl
  rw [hidx, hval, zip_map_self, List.filter_map]
  have hpred : idx.filter
        ((fun p => decide (p.1.1 = i ∧ p.1.2 = j)) ∘
          (fun a => (a, (List.range C).map (fun c => g a.1 a.2 c)))) =
      idx.filter (fun a => a = (i, j)) := by
    apply List.filter_congr
    intro a _
    show decide (a.1 = i ∧ a.2 = j) = decide (a = (i, j))
    simp [Prod.ext_iff]
  rw [hpred, filter_pair_of_count_one (i, j) idx honce]
  have hget : ((List.range C).map (fun c => g i j c)).getD c 0 = g i j c := by
    have hlt : c < ((List.range C).map (fun c => g i j c)).length := by
      rw [List.length_map, List.length_range]
      exact hc
    rw [List.getD_eq_getElem _ _ hlt, List.getElem_map, List.getElem_range]
  simp [List.getElem?_range hc]

/-- C6 witness: a concrete grid reconstructed at a uniquely-occurring
index after gathering at `[(0,1), (1,0)]`. -/
theorem gather_scatter_roundtrip_mean_witness :
    scatterCell (scatter [[((0 : ℕ), (1 : ℕ)), (1, 0)]] [[[3, 10], [2, 9]]]
        2 2 "mean" "undefined") 0 0 1 1 = some 10 := by
  have h := gather_scatter_roundtrip_mean
    (fun x _ c => if x = 0 then (if c = 0 then (3 : ℚ) else 10)
      else (if c = 0 then 2 else 9)) 2
    [((0 : ℕ), (1 : ℕ)), (1, 0)] 2 2 "undefined" (by decide) 0 1 1
    (by decide) (by decide) (by decide) (by decide)
    [[[3, 10], [2, 9]]] rfl
  rw [h]
  rfl

/-- C1 counterexample: with `max_iterations = 0` (jax's `cg` then returns
the initial guess as the last iterate, modelled by `cgStub`), the element
`A = 1, y = 2, x0 = 0` has residual `|A*x - y| = 2`, far beyond
`max(relative_tolerance * |y|, absolute_tolerance)`, yet the solver records
`success := true` (never `success := false`) in the result slot. -/
theorem conjugate_gradient_success_cx :
    conjugate_gradient (0 : ℚ) cgStub (AOperand.single (1 : ℚ)) [2] [0]
        (LinearSolve.mk (1/10) (1/10) 0) =
      Except.ok ([0], SolveResult.mk true (-1)) ∧
    ¬ (|(1 : ℚ) * 0 - 2| ≤ max (1/10 * |(2 : ℚ)|) (1/10)) := by
  constructor
  · rfl
  · norm_num

/-- C1 amended: whenever the batch sizes combine, `conjugate_gradient`
returns the stacked per-batch outputs of the underlying `cg` routine (its
last iterates) without raising, and unconditionally records
`success := true, iterations := -1` in the result slot — non-convergence is
neither raised nor reported as `success := false`. -/
theorem conjugate_gradient_never_raises {M V : Type} (dV : V)
    (cg : AOperand M → V → V → ℚ → ℚ → ℕ → V) (A : AOperand M)
    (y x0 : List V) (p : LinearSolve) (bs1 batch : ℕ)
    (h1 : combined_dim y.length x0.length = some bs1)
    (h2 : cg_batch_size A bs1 = some batch) :
    conjugate_gradient dV cg A y x0 p =
      Except.ok
        ((List.range batch).map (fun b =>
          cg A (y.getD (min b (y.length - 1)) dV)
            (x0.getD (min b (x0.length - 1)) dV)
            p.relative_tolerance p.absolute_tolerance p.max_iterations),
         SolveResult.mk true (-1)) := by
  unfold conjugate_gradient
  simp only [h1, h2]

/-- C1 witness: a concrete batch where the amended statement evaluates. -/
theorem conjugate_gradient_never_raises_witness :
    conjugate_gradient (0 : ℚ) cgStub (AOperand.single (1 : ℚ)) [2, 3] [5]
        (LinearSolve.mk 1 1 4) =
      Except.ok
        ((List.range 2).map (fun b =>
          cgStub (AOperand.single (1 : ℚ)) ([2, 3].getD (min b 1) 0)
            ([(5 : ℚ)].getD (min b 0) 0) 1 1 4),
         SolveResult.mk true (-1)) :=
  conjugate_gradient_never_raises (0 : ℚ) cgStub (AOperand.single (1 : ℚ))
    [2, 3] [5] (LinearSolve.mk 1 1 4) 2 2 (by decide) (by decide)

/-- C4: on compatible batch sizes `conjugate_gradient` returns one solution
per combined batch element (the combined size being the maximum of the
participating batch sizes, with `A`'s batch dimension entering through
`cg_batch_size`), each solved from `y[min(b, bs_y-1)]` and
`x0[min(b, bs_x0-1)]`, so a size-1 `x0` is broadcast to every batch element;
any other batch-size mismatch is an assertion error. -/
theorem conjugate_gradient_batching {M V : Type} (dV : V)
    (cg : AOperand M → V → V → ℚ → ℚ → ℕ → V) (A : AOperand M)
    (y x0 : List V) (p : LinearSolve) (bs1 batch : ℕ)
    (hy : 0 < y.length) (hx : 0 < x0.length)
    (h1 : combined_dim y.length x0.length = some bs1)
    (h2 : cg_batch_size A bs1 = some batch) :
    (conjugate_gradient dV cg A y x0 p =
      Except.ok
        ((List.range batch).map (fun b =>
          cg A (y.getD (min b (y.length - 1)) dV)
            (x0.getD (min b (x0.length - 1)) dV)
            p.relative_tolerance p.absolute_tolerance p.max_iterations),
         SolveResult.mk true (-1))) ∧
    ((List.range batch).map (fun b =>
        cg A (y.getD (min b (y.length - 1)) dV)
          (x0.getD (min b (x0.length - 1)) dV)
          p.relative_tolerance p.absolute_tolerance p.max_iterations)).length =
      batch ∧
    (x0.length = 1 → ∀ b, b < batch →
      ((List.range batch).map (fun b =>
          cg A (y.getD (min b (y.length - 1)) dV)
            (x0.getD (min b (x0.length - 1)) dV)
            p.relative_tolerance p.absolute_tolerance
            p.max_iterations)).getD b dV =
        cg A (y.getD (min b (y.length - 1)) dV) (x0.getD 0 dV)
          p.relative_tolerance p.absolute_tolerance p.max_iterations) ∧
    bs1 = max y.length x0.length ∧
    (∀ y' x0' : List V, combined_dim y'.length x0'.length = none →
      conjugate_gradient dV cg A y' x0' p =
        Except.error PyError.assertionError) := by
  refine ⟨conjugate_gradient_eq_ok dV cg A y x0 p bs1 batch h1 h2, ?_, ?_, ?_, ?_⟩
  · rw [List.length_map, List.length_range]
  · intro hx1 b hb
    rw [getD_range_map batch _ dV b hb, hx1]
    simp
  · unfold combined_dim at h1
    split_ifs at h1 with hab ha1 hb1 <;>
      simp only [Option.some.injEq, reduceCtorEq] at h1 <;> omega
  · intro y' x0' hnone
    unfold conjugate_gradient
    simp only [hnone]

/-- C4 witness: `y` of batch size 4 and `x0` of batch size 1 produce 4
solutions, each initialized from the same `x0`, and a `2` versus `3` batch
mismatch is an assertion error. -/
theorem conjugate_gradient_batching_witness :
    conjugate_gradient (0 : ℚ) cgStub (AOperand.single (1 : ℚ))
        [10, 20, 30, 40] [5] (LinearSolve.mk 1 1 3) =
      Except.ok ([5, 5, 5, 5], SolveResult.mk true (-1)) ∧
    conjugate_gradient (0 : ℚ) cgStub (AOperand.single (1 : ℚ))
        [10, 20] [5, 5, 5] (LinearSolve.mk 1 1 3) =
      Except.error PyError.assertionError := by
  have h := conjugate_gradient_batching (0 : ℚ) cgStub (AOperand.single (1 : ℚ))
    [10, 20, 30, 40] [5] (LinearSolve.mk 1 1 3) 4 4 (by decide) (by decide)
    (by decide) (by decide)
  constructor
  · rw [h.1]
    rfl
  · exact h.2.2.2.2 [10, 20] [5, 5, 5] (by decide)

theorem evalF_ratCast (e : Expr) (args : ℕ → ℚ) :
    ((e.evalF args : ℚ) : ℝ) = e.evalF (fun i => ((args i : ℚ) : ℝ)) := by
  induction e with
  | var i => rfl
  | const q => simp [Expr.evalF]
  | add a b iha ihb =>
    simp only [Expr.evalF]
    push_cast
    rw [iha, ihb]
  | mul a b iha ihb =>
    simp only [Expr.evalF]
    push_cast
    rw [iha, ihb]

theorem hasDerivAt_evalF (e : Expr) (x : ℝ) :
    HasDerivAt (fun t : ℝ => e.evalF (fun j => if j = 0 then t else 0))
      ((e.pderiv 0).evalF (fun j => if j = 0 then x else 0)) x := by
  induction e with
  | var i =>
    by_cases h : i = 0
    · subst h
      simp only [Expr.evalF, Expr.pderiv, if_pos rfl]
      simpa using hasDerivAt_id x
    · have h0 : ¬ (0 = i) := fun h0 => h h0.symm
      simp only [Expr.evalF, Expr.pderiv, if_neg h, if_neg h0]
      simpa using hasDerivAt_const x ((0 : ℚ) : ℝ)
  | const q =>
    simp only [Expr.evalF, Expr.pderiv]
    simpa using hasDerivAt_const x ((q : ℚ) : ℝ)
  | add a b iha ihb =>
    simp only [Expr.evalF, Expr.pderiv]
    exact iha.add ihb
  | mul a b iha ihb =>
    simp only [Expr.evalF, Expr.pderiv]
    exact iha.mul ihb

/-- C5: with `get_output=True`, `functional_gradient` returns the primary
output, then the auxiliary outputs unchanged, then one gradient of the
primary output per `wrt` entry; and the gradient entries are the true
mathematical derivatives (stated for a single argument, the symbolic
partial derivative at `[x]` being the derivative of the real-valued
evaluation map at `x`). -/
theorem functional_gradient_get_output (f : PyFunc) (wrt : List ℕ)
    (args : List ℚ) (haux : f.isSeq = true → f.auxOut ≠ []) :
    functional_gradient_output f wrt args =
      Except.ok (f.primary.eval args ::
        ((if f.isSeq then f.auxOut.map (fun a => a.eval args) else []) ++
          wrt.map (fun i => (f.primary.pderiv i).eval args))) ∧
    ∀ (e : Expr) (x : ℚ),
      HasDerivAt (fun t : ℝ => e.evalF (fun j => if j = 0 then t else 0))
        (((e.pderiv 0).eval [x] : ℚ) : ℝ) ((x : ℚ) : ℝ) := by
  constructor
  · by_cases hseq : f.isSeq = true
    · have hne : f.auxOut ≠ [] := haux hseq
      simp [functional_gradient_output, aux_split, hseq, hne]
    · have hseq' : f.isSeq = false := by
        revert hseq
        cases f.isSeq <;> simp
      simp [functional_gradient_output, aux_split, hseq']
  · intro e x
    have h := hasDerivAt_evalF e ((x : ℚ) : ℝ)
    have hco : (((e.pderiv 0).eval [x] : ℚ) : ℝ) =
        (e.pderiv 0).evalF (fun j => if j = 0 then ((x : ℚ) : ℝ) else 0) := by
      rw [Expr.eval, evalF_ratCast]
      congr 1
      funext i
      cases i with
      | zero => simp
      | succ n => simp [List.getD]
    rw [hco]
    exact h

/-- C5 witness: `f(x) = x * x` at `x = 2` with `wrt = (0,)` and
`get_output=True` returns `(4.0, 4.0)`. -/
theorem functional_gradient_get_output_witness :
    functional_gradient_output
        (PyFunc.mk (Expr.mul (Expr.var 0) (Expr.var 0)) [] false) [0] [2] =
      Except.ok [4, 4] := by
  have h := (functional_gradient_get_output
    (PyFunc.mk (Expr.mul (Expr.var 0) (Expr.var 0)) [] false) [0] [2]
    (fun hh => absurd hh (by decide))).1
  rw [h]
  norm_num [Expr.eval, Expr.evalF, Expr.pderiv]

theorem nthKey_succ {K : Type} (split : K → K × K) (k0 : K) (n : ℕ) :
    nthKey split k0 (n + 1) = nthKey split (split k0).1 n := by
  unfold nthKey
  rw [Function.iterate_succ_apply]

theorem nthKey_succ_last {K : Type} (split : K → K × K) (k0 : K) (n : ℕ) :
    nthKey split k0 (n + 1) = (split (nthKey split k0 n)).1 := by
  unfold nthKey
  rw [Function.iterate_succ_apply']

theorem run_calls_subkeys {K S : Type} (split : K → K × K) (k0 : K)
    (calls : List (K → S)) :
    run_calls split (RandomBackend.mk k0) calls =
      List.zipWith (fun c i => c (nthSubkey split k0 i)) calls
        (List.range calls.length) := by
  induction calls generalizing k0 with
  | nil => rfl
  | cons c cs ih =>
    simp only [run_calls, random_sample]
    rw [ih, List.length_cons, List.range_succ_eq_map, List.zipWith_cons_cons,
      List.zipWith_map_right]
    rfl

/-- C10: `JaxBackend` sampling is a deterministic key-splitting state
machine: starting from `PRNGKey(0)`, the `n`-th call consumes the `n`-th
subkey of the split chain, two backends constructed the same way return
pairwise equal samples for the same call sequence, and (for any splitting
function whose parts are fresh and injective, as a PRNG split is)
consecutive calls consume distinct subkeys. -/
theorem random_key_state_machine {K S : Type} (split : K → K × K)
    (prngKey : ℕ → K) (calls : List (K → S))
    (hsplit1 : ∀ k, (split k).1 ≠ k)
    (hsplit2 : ∀ k k', (split k).2 = (split k').2 → k = k') :
    run_calls split (initBackend prngKey) calls =
      List.zipWith (fun c i => c (nthSubkey split (prngKey 0) i)) calls
        (List.range calls.length) ∧
    (∀ b1 b2 : RandomBackend K, b1 = initBackend prngKey →
      b2 = initBackend prngKey →
      run_calls split b1 calls = run_calls split b2 calls) ∧
    ∀ n, nthSubkey split (prngKey 0) (n + 1) ≠ nthSubkey split (prngKey 0) n := by
  refine ⟨run_calls_subkeys split (prngKey 0) calls, ?_, ?_⟩
  · intro b1 b2 h1 h2
    rw [h1, h2]
  · intro n heq
    have hk : nthKey split (prngKey 0) (n + 1) = nthKey split (prngKey 0) n :=
      hsplit2 _ _ heq
    rw [nthKey_succ_last] at hk
    exact hsplit1 (nthKey split (prngKey 0) n) hk

/-- C10 witness: a concrete split function run for two calls from seed 0
yields the subkey sequence `2, 4` with distinct consecutive subkeys. -/
theorem random_key_state_machine_witness :
    run_calls (fun n => (2 * n + 1, 2 * n + 2)) (initBackend (fun s => s))
        [fun k => k, fun k => k] = [2, 4] ∧
    nthSubkey (fun n => (2 * n + 1, 2 * n + 2)) 0 1 ≠
      nthSubkey (fun n => (2 * n + 1, 2 * n + 2)) 0 0 := by
  have h := random_key_state_machine (fun n => (2 * n + 1, 2 * n + 2))
    (fun s => s) [fun k : ℕ => k, fun k : ℕ => k]
    (by intro k; show 2 * k + 1 ≠ k; omega)
    (by intro k k' hkk; have h2 : 2 * k + 2 = 2 * k' + 2 := hkk; omega)
  exact ⟨h.1.trans (by decide), h.2.2 0⟩

end PhiJax
